import Mathlib

/-!
# cloud-nuke: API Gateway (v1) selection and bulk deletion

Shallow embedding of `aws/apigateway.go` (`getAll`, `nukeAll`, `nukeAsync`).

* A Go `error` is `Option AwsError` (`none` is `nil`); a `*string` is
  `Option String` (`none` is the nil pointer).
* The provider client is an interface value; it is embedded as a pair of
  state-passing functions over an arbitrary provider state `σ`, so a delete
  outcome may depend on everything that happened before it.
* An identifier of the specification is a string; `nukeAll` receives pointers
  to them, so a batch of identifiers is `ids.map some` for `ids : List String`.
* The goroutines started by `nukeAll` are embedded as tasks advanced one
  atomic action at a time by an explicit schedule (a list of task indices).
  While no goroutine has panicked, whatever the schedule leaves unfinished is
  then run to completion, which is what `wg.Wait()` waits for.
* A nil-pointer dereference inside a goroutine is an unrecovered panic. The
  panicking goroutine still runs its deferred `wg.Done()`, and the process
  exits some time later. Until then the other goroutines keep running, and
  the main goroutine may get past `wg.Wait()`, run its loop and even return.
  The explicit schedule says how far everything gets before the exit.
* Provider errors are the error values of the SDK client; none of them is a
  `*multierror.Error`, so `multierror.Append` adds exactly one cause per call.
* A nil slice and an empty slice are both the empty list.
-/

namespace CloudNuke

/-- Provider error value: what the SDK client hands back as a non-nil `error`
(an `awserr.Error` or a request failure, never a `*multierror.Error`). -/
structure AwsError where
  msg : String
deriving DecidableEq, Repr

/-- Item of a listing response: `apigateway.RestApi` (only the fields read). -/
structure RestApi where
  Id : Option String
  Name : Option String
  CreatedDate : Option Nat
deriving DecidableEq, Repr

/-- Listing response `apigateway.GetRestApisOutput`. -/
structure GetRestApisOutput where
  Items : List RestApi
deriving DecidableEq, Repr

/-- Request `apigateway.DeleteRestApiInput`. -/
structure DeleteRestApiInput where
  RestApiId : Option String
deriving DecidableEq, Repr

/-- The two client operations used, over a provider state `σ`. The listing
call returns the Go pair `(result, err)`; the output pointer itself is never
nil (the SDK allocates it before sending the request). -/
structure APIGatewayAPI (σ : Type) where
  GetRestApis : σ → (GetRestApisOutput × Option AwsError) × σ
  DeleteRestApi : DeleteRestApiInput → σ → Option AwsError × σ

/-- Receiver `ApiGateway`: the client and the region. -/
structure ApiGateway (σ : Type) where
  Client : APIGatewayAPI σ
  Region : String

/-- Filter view `config.ResourceValue`. -/
structure ResourceValue where
  Name : Option String
  Time : Option Nat
deriving DecidableEq, Repr

/-- Filter rule set `config.ResourceType`; its rule language lives outside this
file, so the predicate is a parameter. -/
structure ResourceType where
  ShouldInclude : ResourceValue → Bool

/-- Configuration object `config.Config` (only the field read). -/
structure Config where
  APIGateway : ResourceType

/-- Audit record `report.Entry`. -/
structure Entry where
  Identifier : String
  ResourceType : String
  Error : Option AwsError
deriving DecidableEq, Repr

/-- Event passed to `telemetry.TrackEvent`: its name and the region attribute. -/
structure TelemetryEvent where
  EventName : String
  region : String
deriving DecidableEq, Repr

/-- Log lines written by the three functions, one constructor per call site. -/
inductive LogLine where
  | noGateways (region : String)
  | tooMany
  | deleting (region : String)
  | failed (err : AwsError)
  | okDeleted (id : String) (region : String)
  | failedDeleting (id : String) (region : String)
deriving DecidableEq, Repr

/-- Everything outside the functions that they read or write. `deleteCalls`
and `filterEvals` are ghost logs of the calls made to `DeleteRestApi` (request
identifier and returned error) and to `ShouldInclude`. -/
structure World (σ : Type) where
  provider : σ
  deleteCalls : List (Option String × Option AwsError)
  filterEvals : List ResourceValue
  reports : List Entry
  events : List TelemetryEvent
  logs : List LogLine
deriving DecidableEq, Repr

/-- Result of `errors.WithStackTrace`: the wrapped error. -/
structure Traced (α : Type) where
  inner : α
deriving DecidableEq, Repr

/-- Wrapper `errors.WithStackTrace`. -/
def WithStackTrace {α : Type} (err : α) : Traced α := ⟨err⟩

/-- Non-nil `*multierror.Error`: the list of causes. -/
structure MultiError where
  Errors : List AwsError
deriving DecidableEq, Repr

/-- Call `multierror.Append(allErrs, err)` of line 62. `allErrs` is a
`*multierror.Error`, so `Append` takes its first branch: a nil accumulator is
allocated, and `err`, which is non-nil and not itself a `*multierror.Error`,
is appended as one cause (only a `*multierror.Error` argument is flattened). -/
def MultiError.Append (allErrs : Option MultiError) (err : AwsError) : Option MultiError :=
  match allErrs with
  | none => some ⟨[err]⟩
  | some m => some ⟨m.Errors ++ [err]⟩

/-- Method `(*multierror.Error).ErrorOrNil`. -/
def MultiError.ErrorOrNil : Option MultiError → Option MultiError
  | none => none
  | some m => if m.Errors.length = 0 then none else some m

/-- Non-nil errors `nukeAll` can return. -/
inductive NukeError where
  | TooManyApiGatewayErr
  | stack (err : Traced MultiError)
deriving DecidableEq, Repr

/-- How a call ends: it returns a value, the process exits in an unrecovered
panic before the call has returned, or the call waits forever. -/
inductive Completion (α : Type) where
  | returned (v : α)
  | panicked
  | blocked
deriving DecidableEq, Repr

/-- Helper `aws.StringValue`: the empty string for a nil pointer. -/
def StringValue : Option String → String
  | some s => s
  | none => ""

/-! ## getAll -/

/-- One iteration of the loop of `getAll` (lines 25-32). -/
def getAllStep {σ : Type} (configObj : Config) (acc : List (Option String) × World σ)
    (api : RestApi) : List (Option String) × World σ :=
  let v : ResourceValue := { Name := api.Name, Time := api.CreatedDate }
  let w : World σ := { acc.2 with filterEvals := acc.2.filterEvals ++ [v] }
  if configObj.APIGateway.ShouldInclude v then (acc.1 ++ [api.Id], w) else (acc.1, w)

/-- Function `ApiGateway.getAll`. -/
def getAll {σ : Type} (gateway : ApiGateway σ) (configObj : Config) (w : World σ) :
    (List (Option String) × Option (Traced AwsError)) × World σ :=
  let r := gateway.Client.GetRestApis w.provider
  let w1 : World σ := { w with provider := r.2 }
  match r.1.2 with
  | some err => (([], some (WithStackTrace err)), w1)
  | none =>
    let out := r.1.1.Items.foldl (getAllStep configObj) ([], w1)
    ((out.1, none), out.2)

/-! ## nukeAsync -/

/-- Progress of one `nukeAsync` goroutine. From `sent` on, the value sits in
the task's buffered channel. `panicked` is the end of a goroutine whose
identifier was nil. -/
inductive Stage where
  | pending
  | sent (err : Option AwsError)
  | recorded (err : Option AwsError)
  | done (err : Option AwsError)
  | panicked (err : Option AwsError)
deriving DecidableEq, Repr

/-- Has the goroutine called `wg.Done()`? It has at the end of the function and
after a panic, since the call is deferred (line 82). -/
def Stage.finished : Stage → Bool
  | .done _ => true
  | .panicked _ => true
  | _ => false

/-- Stage of a goroutine whose dereference has just panicked: the deferred
`wg.Done()` has run, and the channel keeps what was sent. -/
def Stage.afterPanic : Stage → Stage
  | .sent err => .panicked err
  | s => s

/-- One goroutine: its argument and how far it got. -/
structure Task where
  apigwID : Option String
  stage : Stage
deriving DecidableEq, Repr

/-- Outcome of one atomic action of a task. -/
inductive StepResult (σ : Type) where
  | ok (t : Task) (w : World σ)
  | crash
deriving DecidableEq, Repr

/-- One atomic action of `nukeAsync`:
* `pending`: lines 84-86, the delete request and the send on the task's channel;
* `sent`: lines 89-94, the dereference `*apigwID` and `report.Record`;
* `recorded`: lines 96-103, the log line, then the deferred `wg.Done()`;
* `done`, `panicked`: nothing left.
The send never blocks (the channel has capacity 1 and is read only after
`wg.Wait()`). On a nil `apigwID` the dereference panics before `report.Record`;
nothing in the function recovers from it. -/
def nukeAsyncStep {σ : Type} (gateway : ApiGateway σ) (t : Task) (w : World σ) : StepResult σ :=
  match t.stage with
  | .pending =>
    let input : DeleteRestApiInput := { RestApiId := t.apigwID }
    let r := gateway.Client.DeleteRestApi input w.provider
    .ok { t with stage := .sent r.1 }
      { w with provider := r.2, deleteCalls := w.deleteCalls ++ [(input.RestApiId, r.1)] }
  | .sent err =>
    match t.apigwID with
    | none => .crash
    | some s =>
      let e : Entry := { Identifier := s, ResourceType := "APIGateway (v1)", Error := err }
      .ok { t with stage := .recorded err } { w with reports := w.reports ++ [e] }
  | .recorded err =>
    let line : LogLine :=
      if err = none then .okDeleted (StringValue t.apigwID) gateway.Region
      else .failedDeleting (StringValue t.apigwID) gateway.Region
    .ok { t with stage := .done err } { w with logs := w.logs ++ [line] }
  | .done _ => .ok t w
  | .panicked _ => .ok t w

/-- State of a run of goroutines: the tasks, the world, and whether a goroutine
has panicked, so that the process is on its way out. -/
structure RunState (σ : Type) where
  tasks : List Task
  world : World σ
  crashed : Bool
deriving DecidableEq, Repr

/-- The scheduler lets task `i` perform its next action; an index that names no
task is ignored. A panic marks the process as going down and finishes the task
(its deferred `wg.Done()` runs); the other tasks can still be scheduled. -/
def stepAt {σ : Type} (gateway : ApiGateway σ) (st : RunState σ) (i : Nat) : RunState σ :=
  match st.tasks[i]? with
  | none => st
  | some t =>
    match nukeAsyncStep gateway t st.world with
    | .crash =>
      { st with tasks := st.tasks.set i { t with stage := t.stage.afterPanic }, crashed := true }
    | .ok t' w' => { st with tasks := st.tasks.set i t', world := w' }

/-- Run a whole schedule. -/
def runSched {σ : Type} (gateway : ApiGateway σ) (sched : List Nat) (st : RunState σ) :
    RunState σ :=
  sched.foldl (stepAt gateway) st

/-- Function `ApiGateway.nukeAsync` run on its own from start to end: its three
actions in program order. -/
def nukeAsync {σ : Type} (gateway : ApiGateway σ) (apigwID : Option String) (w : World σ) :
    RunState σ :=
  runSched gateway [0, 0, 0]
    { tasks := [{ apigwID := apigwID, stage := .pending }], world := w, crashed := false }

/-! ## nukeAll -/

/-- Receive `<-errChan`: blocks while the task has not sent yet. -/
def recv : Stage → Option (Option AwsError)
  | .pending => none
  | .sent err => some err
  | .recorded err => some err
  | .done err => some err
  | .panicked err => some err

/-- Loop of lines 60-71 over the channels, in batch order, up to the return of
lines 72-77. `budget` is `none` when no goroutine has panicked. After a panic it
is the number of actions (a log line, a telemetry event, the return) the main
goroutine still performs before the process exits. -/
def collect {σ : Type} (gateway : ApiGateway σ) :
    Option Nat → List Task → Option MultiError × World σ →
      Completion (Option MultiError) × World σ
  | budget, [], acc =>
    if budget = some 0 then (.panicked, acc.2) else (.returned acc.1, acc.2)
  | budget, t :: ts, acc =>
    match recv t.stage with
    | none => (if budget.isSome then .panicked else .blocked, acc.2)
    | some none => collect gateway budget ts acc
    | some (some err) =>
      let logged : World σ := { acc.2 with logs := acc.2.logs ++ [.failed err] }
      let tracked : World σ :=
        { logged with
          events := logged.events ++
            [{ EventName := "Error Nuking API Gateway", region := gateway.Region }] }
      match budget with
      | none => collect gateway none ts (MultiError.Append acc.1 err, tracked)
      | some 0 => (.panicked, acc.2)
      | some 1 => (.panicked, logged)
      | some (k + 2) => collect gateway (some k) ts (MultiError.Append acc.1 err, tracked)

/-- Have all goroutines called `wg.Done()`, so that `wg.Wait()` returns? -/
def allFinished (tasks : List Task) : Bool :=
  tasks.all (fun t => t.stage.finished)

/-- The goroutines follow the explicit schedule until all of them have finished
or the schedule is used up; what is left of the schedule is returned. -/
def runUntilJoin {σ : Type} (gateway : ApiGateway σ) :
    List Nat → RunState σ → RunState σ × List Nat
  | [], st => (st, [])
  | i :: s, st =>
    if allFinished st.tasks then (st, i :: s) else runUntilJoin gateway s (stepAt gateway st i)

/-- Step of the fair continuation after the explicit schedule: a panic there
exits the process at once. -/
def drainStep {σ : Type} (gateway : ApiGateway σ) (st : RunState σ) (i : Nat) : RunState σ :=
  if st.crashed then st else stepAt gateway st i

/-- Fair continuation: each of the `n` tasks gets its three actions. -/
def drain {σ : Type} (gateway : ApiGateway σ) (n : Nat) (st : RunState σ) : RunState σ :=
  (List.range n ++ (List.range n ++ List.range n)).foldl (drainStep gateway) st

/-- State in which lines 50-56 leave the goroutines: one per identifier, none
started yet. -/
def startState {σ : Type} (identifiers : List (Option String)) (w : World σ) : RunState σ :=
  { tasks := identifiers.map (fun id => { apigwID := id, stage := .pending }),
    world := w, crashed := false }

/-- Lines 50-57: one goroutine per identifier, interleaved as `sched` says. If
no goroutine has panicked when the schedule is used up, the goroutines go on
until `wg.Wait()` returns. If one has, the process exits when the schedule is
used up, wherever the others are. -/
def fanOut {σ : Type} (gateway : ApiGateway σ) (sched : List Nat)
    (identifiers : List (Option String)) (w : World σ) : RunState σ :=
  let j := runUntilJoin gateway sched (startState identifiers w)
  if j.1.crashed then j.1 else drain gateway identifiers.length j.1

/-- Number of actions left to the main goroutine after `wg.Wait()` when the
process is going down: what the goroutines have left of the schedule. -/
def exitBudget {σ : Type} (gateway : ApiGateway σ) (sched : List Nat)
    (identifiers : List (Option String)) (w : World σ) : Nat :=
  (runUntilJoin gateway sched (startState identifiers w)).2.length

/-- Function `ApiGateway.nukeAll`, under the goroutine schedule `sched`. -/
def nukeAll {σ : Type} (gateway : ApiGateway σ) (sched : List Nat)
    (identifiers : List (Option String)) (w : World σ) :
    Completion (Option NukeError) × World σ :=
  let w1 : World σ :=
    if identifiers.length = 0 then { w with logs := w.logs ++ [.noGateways gateway.Region] }
    else w
  if identifiers.length > 100 then
    (.returned (some .TooManyApiGatewayErr), { w1 with logs := w1.logs ++ [.tooMany] })
  else
    let w2 : World σ := { w1 with logs := w1.logs ++ [.deleting gateway.Region] }
    let st := fanOut gateway sched identifiers w2
    if allFinished st.tasks then
      let budget : Option Nat :=
        if st.crashed then some (exitBudget gateway sched identifiers w2) else none
      match collect gateway budget st.tasks (none, st.world) with
      | (.returned allErrs, w3) =>
        match MultiError.ErrorOrNil allErrs with
        | some finalErr => (.returned (some (.stack (WithStackTrace finalErr))), w3)
        | none => (.returned none, w3)
      | (.panicked, w3) => (.panicked, w3)
      | (.blocked, w3) => (.blocked, w3)
    else if st.crashed then (.panicked, st.world)
    else (.blocked, st.world)

/-! ## Bookkeeping used by the proofs -/

/-- Number of actions a task has performed. -/
def Stage.rank : Stage → Nat
  | .pending => 0
  | .sent _ => 1
  | .recorded _ => 2
  | .done _ => 3
  | .panicked _ => 3

/-- Error held by a task that has called the provider (`nil` before that). -/
def Stage.err : Stage → Option AwsError
  | .pending => none
  | .sent e => e
  | .recorded e => e
  | .done e => e
  | .panicked e => e

/-- Delete call a task has made so far, if any. -/
def callOf (t : Task) : Option (Option String × Option AwsError) :=
  (recv t.stage).map (fun e => (t.apigwID, e))

/-- Report entry a task has recorded so far, if any. -/
def reportOf (t : Task) : Option Entry :=
  match t.stage, t.apigwID with
  | .recorded e, some s => some { Identifier := s, ResourceType := "APIGateway (v1)", Error := e }
  | .done e, some s => some { Identifier := s, ResourceType := "APIGateway (v1)", Error := e }
  | _, _ => none

/-- What a run started in world `w0` keeps true at every moment. -/
structure Inv {σ : Type} (w0 : World σ) (st : RunState σ) : Prop where
  calls : ∃ cs, st.world.deleteCalls = w0.deleteCalls ++ cs ∧ cs.Perm (st.tasks.filterMap callOf)
  reps : ∃ rs, st.world.reports = w0.reports ++ rs ∧ rs.Perm (st.tasks.filterMap reportOf)
  events : st.world.events = w0.events
  filterEvals : st.world.filterEvals = w0.filterEvals

/-- Causes held by a possibly nil `*multierror.Error`. -/
def causes : Option MultiError → List AwsError
  | none => []
  | some m => m.Errors

/-- Telemetry event sent for a failed delete. -/
def failureEvent {σ : Type} (gateway : ApiGateway σ) : TelemetryEvent :=
  { EventName := "Error Nuking API Gateway", region := gateway.Region }

/-- Value `nukeAll` returns after aggregation, from the causes collected. -/
def resultOf (cs : List AwsError) : Option NukeError :=
  if cs = [] then none else some (.stack (WithStackTrace ⟨cs⟩))

/-! ## Test doubles used by the concrete scenarios -/

/-- Provider whose deletes all succeed. -/
def okClient : APIGatewayAPI Unit where
  GetRestApis := fun s => ((⟨[]⟩, none), s)
  DeleteRestApi := fun _ s => (none, s)

/-- Provider whose delete fails exactly for identifier `Z` and for a missing
identifier. -/
def zFailsClient : APIGatewayAPI Unit where
  GetRestApis := fun s => ((⟨[]⟩, none), s)
  DeleteRestApi := fun input s =>
    match input.RestApiId with
    | none => (some ⟨"missing RestApiId"⟩, s)
    | some id => if id = "Z" then (some ⟨"delete Z failed"⟩, s) else (none, s)

/-- Provider whose listing succeeds with the given items and whose deletes all
succeed. -/
def listingClient (items : List RestApi) : APIGatewayAPI Unit where
  GetRestApis := fun s => ((⟨items⟩, none), s)
  DeleteRestApi := fun _ s => (none, s)

/-- Provider whose listing fails, handing back an error next to a response that
still holds an item. -/
def brokenListingClient : APIGatewayAPI Unit where
  GetRestApis := fun s =>
    ((⟨[{ Id := some "A", Name := some "keep", CreatedDate := some 0 }]⟩, some ⟨"listing failed"⟩), s)
  DeleteRestApi := fun _ s => (none, s)

/-- Gateway whose listing is `[A(name=keep), B(name=drop)]`. -/
def keepDropGateway : ApiGateway Unit :=
  { Client := listingClient
      ([{ Id := some "A", Name := some "keep", CreatedDate := some 0 },
        { Id := some "B", Name := some "drop", CreatedDate := some 0 }]),
    Region := "us-east-1" }

/-- Gateway whose listing holds one included item whose `Id` is nil. -/
def nilIdGateway : ApiGateway Unit :=
  { Client := listingClient ([{ Id := none, Name := some "drop-me", CreatedDate := some 0 }]),
    Region := "us-east-1" }

/-- Gateway over `brokenListingClient`. -/
def brokenListingGateway : ApiGateway Unit :=
  { Client := brokenListingClient, Region := "us-east-1" }

/-- Gateway over `okClient`. -/
def okGateway : ApiGateway Unit := { Client := okClient, Region := "us-east-1" }

/-- Gateway over `zFailsClient`. -/
def zFailsGateway : ApiGateway Unit := { Client := zFailsClient, Region := "us-east-1" }

/-- Filter that includes the names starting with `drop`. -/
def dropConfig : Config where
  APIGateway := ⟨fun v =>
    match v.Name with
    | some n => "drop".toList.isPrefixOf n.toList
    | none => false⟩

/-- Filter that includes everything. -/
def allConfig : Config where
  APIGateway := ⟨fun _ => true⟩

/-- Initial world with empty sinks. -/
def emptyWorld : World Unit :=
  { provider := (), deleteCalls := [], filterEvals := [], reports := [], events := [], logs := [] }

/-! ## List facts -/

theorem filterMap_set_same {α β : Type} (f : α → Option β) :
    ∀ (l : List α) (i : Nat) (t t' : α), l[i]? = some t → f t' = f t →
      (l.set i t').filterMap f = l.filterMap f
  | [], _, _, _, h, _ => by simp at h
  | a :: l, 0, t, t', h, hf => by
    simp at h
    subst h
    simp [List.filterMap_cons, hf]
  | a :: l, i + 1, t, t', h, hf => by
    simp at h
    simp [List.filterMap_cons, filterMap_set_same f l i t t' h hf]

theorem filterMap_set_new {α β : Type} (f : α → Option β) :
    ∀ (l : List α) (i : Nat) (t t' : α) (x : β), l[i]? = some t → f t = none → f t' = some x →
      ((l.set i t').filterMap f).Perm (x :: l.filterMap f)
  | [], _, _, _, _, h, _, _ => by simp at h
  | a :: l, 0, t, t', x, h, hn, hs => by
    simp at h
    subst h
    simp [List.filterMap_cons, hn, hs]
  | a :: l, i + 1, t, t', x, h, hn, hs => by
    simp at h
    have ih := filterMap_set_new f l i t t' x h hn hs
    cases hfa : f a with
    | none => simpa [List.filterMap_cons, hfa] using ih
    | some y =>
      simp only [List.set_cons_succ, List.filterMap_cons, hfa]
      exact (List.Perm.cons y ih).trans (List.Perm.swap x y _)

theorem map_set_same {α β : Type} (g : α → β) :
    ∀ (l : List α) (i : Nat) (t t' : α), l[i]? = some t → g t' = g t →
      (l.set i t').map g = l.map g
  | [], _, _, _, h, _ => by simp at h
  | a :: l, 0, t, t', h, hg => by
    simp at h
    subst h
    simp [hg]
  | a :: l, i + 1, t, t', h, hg => by
    simp at h
    simp [map_set_same g l i t t' h hg]

/-- Every way an action of a task can end, read off `nukeAsyncStep`. -/
theorem nukeAsyncStep_cases {σ : Type} (gw : ApiGateway σ) (t : Task) (w : World σ) :
    (t.stage = .pending ∧
      nukeAsyncStep gw t w = .ok { t with stage := .sent (gw.Client.DeleteRestApi ⟨t.apigwID⟩ w.provider).1 }
        { w with provider := (gw.Client.DeleteRestApi ⟨t.apigwID⟩ w.provider).2,
                 deleteCalls := w.deleteCalls ++ [(t.apigwID, (gw.Client.DeleteRestApi ⟨t.apigwID⟩ w.provider).1)] }) ∨
    (∃ e, t.stage = .sent e ∧ t.apigwID = none ∧ nukeAsyncStep gw t w = .crash) ∨
    (∃ e s, t.stage = .sent e ∧ t.apigwID = some s ∧
      nukeAsyncStep gw t w = .ok { t with stage := .recorded e }
        { w with reports := w.reports ++ [{ Identifier := s, ResourceType := "APIGateway (v1)", Error := e }] }) ∨
    (∃ e l, t.stage = .recorded e ∧
      nukeAsyncStep gw t w = .ok { t with stage := .done e } { w with logs := w.logs ++ [l] }) ∨
    (∃ e, (t.stage = .done e ∨ t.stage = .panicked e) ∧ nukeAsyncStep gw t w = .ok t w) := by
  obtain ⟨id, stage⟩ := t
  cases stage with
  | pending => left; exact ⟨rfl, rfl⟩
  | sent e =>
    cases id with
    | none => right; left; exact ⟨e, rfl, rfl, rfl⟩
    | some s => right; right; left; exact ⟨e, s, rfl, rfl, rfl⟩
  | recorded e => right; right; right; left; exact ⟨e, _, rfl, rfl⟩
  | done e => right; right; right; right; exact ⟨e, Or.inl rfl, rfl⟩
  | panicked e => right; right; right; right; exact ⟨e, Or.inr rfl, rfl⟩

/-! ## Runs of goroutines -/

theorem stepAt_none {σ : Type} (gw : ApiGateway σ) (st : RunState σ) (i : Nat)
    (ht : st.tasks[i]? = none) : stepAt gw st i = st := by
  simp [stepAt, ht]

theorem stepAt_ok {σ : Type} (gw : ApiGateway σ) (st : RunState σ) (i : Nat) (t t' : Task)
    (w' : World σ) (ht : st.tasks[i]? = some t)
    (h : nukeAsyncStep gw t st.world = .ok t' w') :
    stepAt gw st i = { tasks := st.tasks.set i t', world := w', crashed := st.crashed } := by
  simp [stepAt, ht, h]

theorem stepAt_crash {σ : Type} (gw : ApiGateway σ) (st : RunState σ) (i : Nat) (t : Task)
    (ht : st.tasks[i]? = some t) (h : nukeAsyncStep gw t st.world = .crash) :
    stepAt gw st i =
      { tasks := st.tasks.set i { t with stage := t.stage.afterPanic }, world := st.world,
        crashed := true } := by
  simp [stepAt, ht, h]

theorem stepAt_inv {σ : Type} (gw : ApiGateway σ) (w0 : World σ) (st : RunState σ) (i : Nat)
    (h : Inv w0 st) : Inv w0 (stepAt gw st i) := by
  cases ht : st.tasks[i]? with
  | none => rw [stepAt_none gw st i ht]; exact h
  | some t =>
    obtain ⟨cs, hcs, hcp⟩ := h.calls
    obtain ⟨rs, hrs, hrp⟩ := h.reps
    rcases nukeAsyncStep_cases gw t st.world with ⟨hst, heq⟩ | ⟨e, hst, hid, heq⟩ |
      ⟨e, s, hst, hid, heq⟩ | ⟨e, l, hst, heq⟩ | ⟨e, hst, heq⟩
    · rw [stepAt_ok gw st i t _ _ ht heq]
      refine ⟨⟨cs ++ [(t.apigwID, (gw.Client.DeleteRestApi ⟨t.apigwID⟩ st.world.provider).1)], ?_, ?_⟩,
        ⟨rs, hrs, ?_⟩, h.events, h.filterEvals⟩
      · simp [hcs]
      · refine (List.perm_append_singleton _ _).trans ?_
        refine List.Perm.trans (List.Perm.cons _ hcp) (List.Perm.symm ?_)
        exact filterMap_set_new callOf st.tasks i t _ _ ht (by simp [callOf, hst, recv])
          (by simp [callOf, recv])
      · show rs.Perm ((st.tasks.set i _).filterMap reportOf)
        rw [filterMap_set_same reportOf st.tasks i t _ ht (by simp [reportOf, hst])]
        exact hrp
    · rw [stepAt_crash gw st i t ht heq]
      refine ⟨⟨cs, hcs, ?_⟩, ⟨rs, hrs, ?_⟩, h.events, h.filterEvals⟩
      · show cs.Perm ((st.tasks.set i _).filterMap callOf)
        rw [filterMap_set_same callOf st.tasks i t _ ht
          (by simp [callOf, hst, recv, Stage.afterPanic])]
        exact hcp
      · show rs.Perm ((st.tasks.set i _).filterMap reportOf)
        rw [filterMap_set_same reportOf st.tasks i t _ ht
          (by simp [reportOf, hst, Stage.afterPanic])]
        exact hrp
    · rw [stepAt_ok gw st i t _ _ ht heq]
      refine ⟨⟨cs, hcs, ?_⟩,
        ⟨rs ++ [{ Identifier := s, ResourceType := "APIGateway (v1)", Error := e }], ?_, ?_⟩,
        h.events, h.filterEvals⟩
      · show cs.Perm ((st.tasks.set i _).filterMap callOf)
        rw [filterMap_set_same callOf st.tasks i t _ ht (by simp [callOf, hst, recv])]
        exact hcp
      · simp [hrs]
      · refine (List.perm_append_singleton _ _).trans ?_
        refine List.Perm.trans (List.Perm.cons _ hrp) (List.Perm.symm ?_)
        exact filterMap_set_new reportOf st.tasks i t _ _ ht (by simp [reportOf, hst])
          (by simp [reportOf, hid])
    · rw [stepAt_ok gw st i t _ _ ht heq]
      refine ⟨⟨cs, hcs, ?_⟩, ⟨rs, hrs, ?_⟩, h.events, h.filterEvals⟩
      · show cs.Perm ((st.tasks.set i _).filterMap callOf)
        rw [filterMap_set_same callOf st.tasks i t _ ht (by simp [callOf, hst, recv])]
        exact hcp
      · show rs.Perm ((st.tasks.set i _).filterMap reportOf)
        rw [filterMap_set_same reportOf st.tasks i t _ ht (by
          cases hid : t.apigwID <;> simp [reportOf, hst, hid])]
        exact hrp
    · rw [stepAt_ok gw st i t _ _ ht heq]
      refine ⟨⟨cs, hcs, ?_⟩, ⟨rs, hrs, ?_⟩, h.events, h.filterEvals⟩
      · show cs.Perm ((st.tasks.set i _).filterMap callOf)
        rw [filterMap_set_same callOf st.tasks i t _ ht rfl]
        exact hcp
      · show rs.Perm ((st.tasks.set i _).filterMap reportOf)
        rw [filterMap_set_same reportOf st.tasks i t _ ht rfl]
        exact hrp

theorem stepAt_ids {σ : Type} (gw : ApiGateway σ) (st : RunState σ) (i : Nat) :
    (stepAt gw st i).tasks.map (fun t => t.apigwID) = st.tasks.map (fun t => t.apigwID) := by
  cases ht : st.tasks[i]? with
  | none => rw [stepAt_none gw st i ht]
  | some t =>
    cases hstep : nukeAsyncStep gw t st.world with
    | crash =>
      rw [stepAt_crash gw st i t ht hstep]
      exact map_set_same _ st.tasks i t _ ht rfl
    | ok t' w' =>
      rw [stepAt_ok gw st i t t' w' ht hstep]
      refine map_set_same _ st.tasks i t _ ht ?_
      rcases nukeAsyncStep_cases gw t st.world with ⟨_, heq⟩ | ⟨e, _, _, heq⟩ |
        ⟨e, s, _, _, heq⟩ | ⟨e, l, _, heq⟩ | ⟨e, _, heq⟩ <;> rw [heq] at hstep
      · injection hstep with h1 _; rw [← h1]
      · exact StepResult.noConfusion hstep
      · injection hstep with h1 _; rw [← h1]
      · injection hstep with h1 _; rw [← h1]
      · injection hstep with h1 _; rw [← h1]

theorem runSched_cons {σ : Type} (gw : ApiGateway σ) (i : Nat) (s : List Nat) (st : RunState σ) :
    runSched gw (i :: s) st = runSched gw s (stepAt gw st i) := rfl

theorem runSched_append {σ : Type} (gw : ApiGateway σ) (s s' : List Nat) (st : RunState σ) :
    runSched gw (s ++ s') st = runSched gw s' (runSched gw s st) := by
  simp [runSched, List.foldl_append]

theorem runSched_inv {σ : Type} (gw : ApiGateway σ) (w0 : World σ) :
    ∀ (s : List Nat) (st : RunState σ), Inv w0 st → Inv w0 (runSched gw s st)
  | [], _, h => h
  | i :: s, st, h => runSched_inv gw w0 s _ (stepAt_inv gw w0 st i h)

theorem runSched_ids {σ : Type} (gw : ApiGateway σ) :
    ∀ (s : List Nat) (st : RunState σ),
      (runSched gw s st).tasks.map (fun t => t.apigwID) = st.tasks.map (fun t => t.apigwID)
  | [], _ => rfl
  | i :: s, st => (runSched_ids gw s _).trans (stepAt_ids gw st i)

/-- A step panics only at a task whose identifier is nil. -/
theorem stepAt_no_crash {σ : Type} (gw : ApiGateway σ) (st : RunState σ) (i : Nat)
    (hid : ∀ id ∈ st.tasks.map (fun t => t.apigwID), id ≠ none) (hc : st.crashed = false) :
    (stepAt gw st i).crashed = false := by
  cases ht : st.tasks[i]? with
  | none => rw [stepAt_none gw st i ht]; exact hc
  | some t =>
    rcases nukeAsyncStep_cases gw t st.world with ⟨_, heq⟩ | ⟨e, _, hnil, heq⟩ |
      ⟨e, s, _, _, heq⟩ | ⟨e, l, _, heq⟩ | ⟨e, _, heq⟩
    · rw [stepAt_ok gw st i t _ _ ht heq]; exact hc
    · exact absurd hnil (hid _ (List.mem_map.mpr ⟨t, List.getElem?_mem ht, rfl⟩))
    · rw [stepAt_ok gw st i t _ _ ht heq]; exact hc
    · rw [stepAt_ok gw st i t _ _ ht heq]; exact hc
    · rw [stepAt_ok gw st i t _ _ ht heq]; exact hc

theorem runSched_no_crash {σ : Type} (gw : ApiGateway σ) :
    ∀ (s : List Nat) (st : RunState σ),
      (∀ id ∈ st.tasks.map (fun t => t.apigwID), id ≠ none) → st.crashed = false →
      (runSched gw s st).crashed = false
  | [], _, _, hc => hc
  | i :: s, st, hid, hc =>
    runSched_no_crash gw s _ (by rw [stepAt_ids]; exact hid) (stepAt_no_crash gw st i hid hc)

theorem getElem?_set_self_of_some {α : Type} (l : List α) (i : Nat) (t t' : α)
    (ht : l[i]? = some t) : (l.set i t')[i]? = some t' := by
  have hlt : i < l.length := (List.getElem?_eq_some_iff.mp ht).1
  simp [List.getElem?_set, hlt]

/-- A step moves the chosen task one action forward (a panic takes it to its
end) and leaves the other tasks where they are. -/
theorem stepAt_progress {σ : Type} (gw : ApiGateway σ) (st : RunState σ) (j i : Nat) (t : Task)
    (ht : st.tasks[i]? = some t) :
    ∃ t', (stepAt gw st j).tasks[i]? = some t' ∧
      min 3 (t.stage.rank + (if j = i then 1 else 0)) ≤ t'.stage.rank := by
  by_cases hji : j = i
  · subst hji
    rcases nukeAsyncStep_cases gw t st.world with ⟨hst, heq⟩ | ⟨e, hst, hnil, heq⟩ |
      ⟨e, s, hst, _, heq⟩ | ⟨e, l, hst, heq⟩ | ⟨e, hst, heq⟩
    · rw [stepAt_ok gw st j t _ _ ht heq]
      exact ⟨_, getElem?_set_self_of_some _ _ _ _ ht, by simp [hst, Stage.rank]⟩
    · rw [stepAt_crash gw st j t ht heq]
      exact ⟨_, getElem?_set_self_of_some _ _ _ _ ht,
        by simp [hst, Stage.rank, Stage.afterPanic]⟩
    · rw [stepAt_ok gw st j t _ _ ht heq]
      exact ⟨_, getElem?_set_self_of_some _ _ _ _ ht, by simp [hst, Stage.rank]⟩
    · rw [stepAt_ok gw st j t _ _ ht heq]
      exact ⟨_, getElem?_set_self_of_some _ _ _ _ ht, by simp [hst, Stage.rank]⟩
    · rw [stepAt_ok gw st j t _ _ ht heq]
      refine ⟨_, getElem?_set_self_of_some _ _ _ _ ht, ?_⟩
      rcases hst with hst | hst <;> simp [hst, Stage.rank]
  · refine ⟨t, ?_, by simp [hji]⟩
    cases htj : st.tasks[j]? with
    | none => rw [stepAt_none gw st j htj]; exact ht
    | some u =>
      cases hstep : nukeAsyncStep gw u st.world with
      | crash =>
        rw [stepAt_crash gw st j u htj hstep]
        simp [List.getElem?_set_ne hji, ht]
      | ok u' w' =>
        rw [stepAt_ok gw st j u u' w' htj hstep]
        simp [List.getElem?_set_ne hji, ht]

/-- A task scheduled `k` times has performed at least `k` further actions
(three at most). -/
theorem runSched_progress {σ : Type} (gw : ApiGateway σ) :
    ∀ (s : List Nat) (st : RunState σ) (i : Nat) (t : Task),
      st.tasks[i]? = some t →
      ∃ t', (runSched gw s st).tasks[i]? = some t' ∧
        min 3 (t.stage.rank + s.count i) ≤ t'.stage.rank
  | [], _, _, t, ht => ⟨t, ht, by simp⟩
  | j :: s, st, i, t, ht => by
    rw [runSched_cons]
    obtain ⟨t1, ht1, hr1⟩ := stepAt_progress gw st j i t ht
    obtain ⟨t2, ht2, hr2⟩ := runSched_progress gw s _ i t1 ht1
    refine ⟨t2, ht2, ?_⟩
    rw [List.count_cons]
    by_cases hji : j = i
    · simp only [hji, if_true, beq_self_eq_true] at hr1 ⊢
      omega
    · have hb : (j == i) = false := by simpa using hji
      simp only [hji, if_false, hb, Bool.false_eq_true] at hr1 ⊢
      omega

/-- While no goroutine has panicked, no task is in the `panicked` stage. -/
theorem stepAt_panicked_crashed {σ : Type} (gw : ApiGateway σ) (st : RunState σ) (i : Nat)
    (h : ∀ t ∈ st.tasks, ∀ e, t.stage = .panicked e → st.crashed = true) :
    ∀ t ∈ (stepAt gw st i).tasks, ∀ e, t.stage = .panicked e →
      (stepAt gw st i).crashed = true := by
  cases ht : st.tasks[i]? with
  | none => rw [stepAt_none gw st i ht]; exact h
  | some t =>
    have hmem : t ∈ st.tasks := List.getElem?_mem ht
    rcases nukeAsyncStep_cases gw t st.world with ⟨hst, heq⟩ | ⟨e, hst, hnil, heq⟩ |
      ⟨e, s, hst, hsome, heq⟩ | ⟨e, l, hst, heq⟩ | ⟨e, hst, heq⟩
    · rw [stepAt_ok gw st i t _ _ ht heq]
      intro u hu e' he'
      rcases List.mem_or_eq_of_mem_set hu with hu | rfl
      · exact h u hu e' he'
      · simp at he'
    · rw [stepAt_crash gw st i t ht heq]
      intro u _ e' _
      rfl
    · rw [stepAt_ok gw st i t _ _ ht heq]
      intro u hu e' he'
      rcases List.mem_or_eq_of_mem_set hu with hu | rfl
      · exact h u hu e' he'
      · simp at he'
    · rw [stepAt_ok gw st i t _ _ ht heq]
      intro u hu e' he'
      rcases List.mem_or_eq_of_mem_set hu with hu | rfl
      · exact h u hu e' he'
      · simp at he'
    · rw [stepAt_ok gw st i t _ _ ht heq]
      intro u hu e' he'
      rcases List.mem_or_eq_of_mem_set hu with hu | rfl
      · exact h u hu e' he'
      · exact h u hmem e' he'

theorem runSched_panicked_crashed {σ : Type} (gw : ApiGateway σ) :
    ∀ (s : List Nat) (st : RunState σ),
      (∀ t ∈ st.tasks, ∀ e, t.stage = .panicked e → st.crashed = true) →
      ∀ t ∈ (runSched gw s st).tasks, ∀ e, t.stage = .panicked e →
        (runSched gw s st).crashed = true
  | [], _, h => h
  | i :: s, st, h => runSched_panicked_crashed gw s _ (stepAt_panicked_crashed gw st i h)

/-! ## Join and aggregation -/

theorem drain_fold_crashed {σ : Type} (gw : ApiGateway σ) :
    ∀ (s : List Nat) (st : RunState σ), st.crashed = true →
      s.foldl (drainStep gw) st = st
  | [], _, _ => rfl
  | i :: s, st, h => by
    have h1 : drainStep gw st i = st := by simp [drainStep, h]
    rw [List.foldl_cons, h1]
    exact drain_fold_crashed gw s st h

/-- Continuation in which nobody panics: it is a run of the plain scheduler. -/
theorem drain_fold_eq_runSched {σ : Type} (gw : ApiGateway σ) :
    ∀ (s : List Nat) (st : RunState σ), (s.foldl (drainStep gw) st).crashed = false →
      s.foldl (drainStep gw) st = runSched gw s st
  | [], _, _ => rfl
  | i :: s, st, h => by
    rw [List.foldl_cons] at h ⊢
    have hc : st.crashed = false := by
      cases hcr : st.crashed with
      | false => rfl
      | true =>
        have h1 : drainStep gw st i = st := by simp [drainStep, hcr]
        rw [h1, drain_fold_crashed gw s st hcr] at h
        rw [h] at hcr
        exact hcr.symm
    have h1 : drainStep gw st i = stepAt gw st i := by simp [drainStep, hc]
    rw [h1] at h ⊢
    rw [runSched_cons]
    exact drain_fold_eq_runSched gw s _ h

theorem drain_fold_no_crash {σ : Type} (gw : ApiGateway σ) :
    ∀ (s : List Nat) (st : RunState σ),
      (∀ id ∈ st.tasks.map (fun t => t.apigwID), id ≠ none) → st.crashed = false →
      (s.foldl (drainStep gw) st).crashed = false
  | [], _, _, hc => hc
  | i :: s, st, hid, hc => by
    have h1 : drainStep gw st i = stepAt gw st i := by simp [drainStep, hc]
    rw [List.foldl_cons, h1]
    exact drain_fold_no_crash gw s _ (by rw [stepAt_ids]; exact hid)
      (stepAt_no_crash gw st i hid hc)

/-- The part of the explicit schedule that the goroutines use is a run of the
plain scheduler. -/
theorem runUntilJoin_eq_runSched {σ : Type} (gw : ApiGateway σ) :
    ∀ (s : List Nat) (st : RunState σ),
      ∃ used, (runUntilJoin gw s st).1 = runSched gw used st
  | [], st => ⟨[], rfl⟩
  | i :: s, st => by
    unfold runUntilJoin
    split
    · exact ⟨[], rfl⟩
    · obtain ⟨used, h⟩ := runUntilJoin_eq_runSched gw s (stepAt gw st i)
      exact ⟨i :: used, by rw [h, runSched_cons]⟩

/-- A fan-out in which nobody panicked is a run of the plain scheduler in which
every task is scheduled three times at least. -/
theorem fanOut_eq_runSched {σ : Type} (gw : ApiGateway σ) (sched : List Nat)
    (ids : List (Option String)) (w : World σ)
    (hc : (fanOut gw sched ids w).crashed = false) :
    ∃ used, fanOut gw sched ids w =
      runSched gw (used ++ (List.range ids.length ++
        (List.range ids.length ++ List.range ids.length))) (startState ids w) := by
  obtain ⟨used, hused⟩ := runUntilJoin_eq_runSched gw sched (startState ids w)
  refine ⟨used, ?_⟩
  unfold fanOut at hc ⊢
  simp only [] at hc ⊢
  split at hc
  · rename_i hj
    rw [hj] at hc
    exact absurd hc (by simp)
  · rename_i hj
    rw [if_neg hj]
    unfold drain at hc ⊢
    rw [drain_fold_eq_runSched gw _ _ hc, hused, ← runSched_append]

theorem fanOut_no_crash {σ : Type} (gw : ApiGateway σ) (sched : List Nat)
    (ids : List (Option String)) (w : World σ) (hid : ∀ id ∈ ids, id ≠ none) :
    (fanOut gw sched ids w).crashed = false := by
  obtain ⟨used, hused⟩ := runUntilJoin_eq_runSched gw sched (startState ids w)
  have hid0 : ∀ id ∈ (startState ids w).tasks.map (fun t => t.apigwID), id ≠ none := by
    simpa [startState, List.map_map, Function.comp_def] using hid
  have hj : (runUntilJoin gw sched (startState ids w)).1.crashed = false := by
    rw [hused]
    exact runSched_no_crash gw used _ hid0 rfl
  unfold fanOut
  simp only [hj, Bool.false_eq_true, if_false]
  unfold drain
  apply drain_fold_no_crash
  · rw [hused, runSched_ids]
    exact hid0
  · exact hj

theorem count_fanOut_sched (sched : List Nat) (n i : Nat) (h : i < n) :
    3 ≤ (sched ++ (List.range n ++ (List.range n ++ List.range n))).count i := by
  have h1 : 1 ≤ (List.range n).count i :=
    List.count_pos_iff.mpr (List.mem_range.mpr h)
  simp only [List.count_append]
  omega

theorem fanOut_ids {σ : Type} (gw : ApiGateway σ) (sched : List Nat)
    (ids : List (Option String)) (w : World σ)
    (hc : (fanOut gw sched ids w).crashed = false) :
    (fanOut gw sched ids w).tasks.map (fun t => t.apigwID) = ids := by
  obtain ⟨used, h⟩ := fanOut_eq_runSched gw sched ids w hc
  rw [h, runSched_ids]
  simp [startState, List.map_map, Function.comp_def]

theorem fanOut_inv {σ : Type} (gw : ApiGateway σ) (sched : List Nat)
    (ids : List (Option String)) (w : World σ)
    (hc : (fanOut gw sched ids w).crashed = false) : Inv w (fanOut gw sched ids w) := by
  obtain ⟨used, h⟩ := fanOut_eq_runSched gw sched ids w hc
  rw [h]
  apply runSched_inv
  refine ⟨⟨[], by simp [startState], ?_⟩, ⟨[], by simp [startState], ?_⟩, rfl, rfl⟩
  · simp [startState, List.filterMap_map, Function.comp_def, callOf, recv]
  · simp [startState, List.filterMap_map, Function.comp_def, reportOf]

/-- Join: when no goroutine panicked, every goroutine has run to its end once
`fanOut` is over. -/
theorem fanOut_done {σ : Type} (gw : ApiGateway σ) (sched : List Nat)
    (ids : List (Option String)) (w : World σ)
    (hc : (fanOut gw sched ids w).crashed = false) :
    ∀ t ∈ (fanOut gw sched ids w).tasks, ∃ e, t.stage = .done e := by
  intro t ht
  obtain ⟨used, hrun⟩ := fanOut_eq_runSched gw sched ids w hc
  obtain ⟨i, hi⟩ := List.getElem?_of_mem ht
  have hlen : (fanOut gw sched ids w).tasks.length = ids.length := by
    have := congrArg List.length (fanOut_ids gw sched ids w hc)
    simpa using this
  have hlt : i < ids.length := by
    have := (List.getElem?_eq_some_iff.mp hi).1
    omega
  have h0 : (startState ids w).tasks[i]? = some { apigwID := ids[i], stage := .pending } := by
    simp [startState, List.getElem?_map, List.getElem?_eq_getElem hlt]
  obtain ⟨t', ht', hr⟩ := runSched_progress gw
    (used ++ (List.range ids.length ++ (List.range ids.length ++ List.range ids.length)))
    (startState ids w) i _ h0
  have h3 := count_fanOut_sched used ids.length i hlt
  rw [← hrun, hi] at ht'
  have htt : t = t' := Option.some.inj ht'
  subst htt
  have hrank : 3 ≤ t.stage.rank := by
    have hr' : min 3 (0 + (used ++ (List.range ids.length ++
        (List.range ids.length ++ List.range ids.length))).count i) ≤ t.stage.rank := hr
    omega
  have hnp : ∀ e, t.stage ≠ .panicked e := by
    intro e he
    have hcr : (fanOut gw sched ids w).crashed = true := by
      rw [hrun] at ht ⊢
      refine runSched_panicked_crashed gw _ (startState ids w) ?_ t ht e he
      intro u hu e' he'
      obtain ⟨id, _, rfl⟩ := List.mem_map.mp hu
      simp at he'
    rw [hc] at hcr
    exact absurd hcr (by simp)
  cases hs : t.stage with
  | done e => exact ⟨e, rfl⟩
  | panicked e => exact absurd hs (hnp e)
  | pending => simp [hs, Stage.rank] at hrank
  | sent e => simp [hs, Stage.rank] at hrank
  | recorded e => simp [hs, Stage.rank] at hrank

theorem allFinished_of_done (ts : List Task) (h : ∀ t ∈ ts, ∃ e, t.stage = .done e) :
    allFinished ts = true := by
  unfold allFinished
  rw [List.all_eq_true]
  intro t ht
  obtain ⟨e, he⟩ := h t ht
  simp [he, Stage.finished]

theorem causes_Append (a : Option MultiError) (e : AwsError) :
    causes (MultiError.Append a e) = causes a ++ [e] := by
  cases a <;> rfl

theorem collect_done {σ : Type} (gw : ApiGateway σ) :
    ∀ (ts : List Task) (acc : Option MultiError) (w : World σ),
      (∀ t ∈ ts, ∃ e, t.stage = .done e) →
      ∃ acc' w', collect gw none ts (acc, w) = (.returned acc', w') ∧
        causes acc' = causes acc ++ ts.filterMap (fun t => t.stage.err) ∧
        w'.events = w.events ++
          List.replicate (ts.filterMap (fun t => t.stage.err)).length (failureEvent gw) ∧
        w'.deleteCalls = w.deleteCalls ∧ w'.reports = w.reports ∧
        w'.provider = w.provider ∧ w'.filterEvals = w.filterEvals
  | [], acc, w, _ => ⟨acc, w, by simp [collect], by simp, by simp, rfl, rfl, rfl, rfl⟩
  | t :: ts, acc, w, h => by
    obtain ⟨e, he⟩ := h t (List.mem_cons_self _ _)
    have hts : ∀ u ∈ ts, ∃ e, u.stage = .done e := fun u hu => h u (List.mem_cons_of_mem _ hu)
    cases e with
    | none =>
      obtain ⟨acc', w', h1, h2, h3, h4, h5, h6, h7⟩ := collect_done gw ts acc w hts
      refine ⟨acc', w', ?_, ?_, ?_, h4, h5, h6, h7⟩
      · simp [collect, he, recv, h1]
      · simp [List.filterMap_cons, he, Stage.err, h2]
      · simp [List.filterMap_cons, he, Stage.err, h3]
    | some err =>
      obtain ⟨acc', w', h1, h2, h3, h4, h5, h6, h7⟩ :=
        collect_done gw ts (MultiError.Append acc err)
          { w with logs := w.logs ++ [.failed err],
                   events := w.events ++ [failureEvent gw] } hts
      refine ⟨acc', w', ?_, ?_, ?_, h4, h5, h6, h7⟩
      · simp only [collect, he, recv]
        exact h1
      · simp [List.filterMap_cons, he, Stage.err, h2, causes_Append]
      · simp [List.filterMap_cons, he, Stage.err, h3, List.replicate_succ]

/-- The loop of `nukeAll` never waits on a channel of a finished goroutine. -/
theorem collect_not_blocked {σ : Type} (gw : ApiGateway σ) :
    ∀ (ts : List Task) (budget : Option Nat) (acc : Option MultiError × World σ),
      (∀ t ∈ ts, t.stage.finished = true) → (collect gw budget ts acc).1 ≠ .blocked
  | [], budget, acc, _ => by
    unfold collect
    split <;> simp
  | t :: ts, budget, acc, h => by
    have ht := h t (List.mem_cons_self _ _)
    have hts : ∀ u ∈ ts, u.stage.finished = true := fun u hu => h u (List.mem_cons_of_mem _ hu)
    have hrecv : ∃ e, recv t.stage = some e := by
      cases hs : t.stage <;> simp [hs, Stage.finished, recv] at ht ⊢
    obtain ⟨e, he⟩ := hrecv
    cases e with
    | none =>
      simp only [collect, he]
      exact collect_not_blocked gw ts budget acc hts
    | some err =>
      simp only [collect, he]
      match budget with
      | none => exact collect_not_blocked gw ts none _ hts
      | some 0 => simp
      | some 1 => simp
      | some (k + 2) => exact collect_not_blocked gw ts (some k) _ hts

theorem ErrorOrNil_eq (a : Option MultiError) :
    (MultiError.ErrorOrNil a).map (fun m => NukeError.stack (WithStackTrace m)) =
      resultOf (causes a) := by
  cases a with
  | none => rfl
  | some m =>
    obtain ⟨es⟩ := m
    cases es with
    | nil => rfl
    | cons e es => simp [MultiError.ErrorOrNil, resultOf, causes]

theorem filterMap_callOf_done :
    ∀ (ts : List Task), (∀ t ∈ ts, ∃ e, t.stage = .done e) →
      ts.filterMap callOf = ts.map (fun t => (t.apigwID, t.stage.err))
  | [], _ => rfl
  | t :: ts, h => by
    obtain ⟨e, he⟩ := h t (List.mem_cons_self _ _)
    have ih := filterMap_callOf_done ts (fun u hu => h u (List.mem_cons_of_mem _ hu))
    simp [List.filterMap_cons, callOf, recv, he, Stage.err, ih]

theorem filterMap_reportOf_done :
    ∀ (ts : List Task), (∀ t ∈ ts, ∃ e, t.stage = .done e) →
      (∀ t ∈ ts, t.apigwID ≠ none) →
      ts.filterMap reportOf = ts.map (fun t =>
        { Identifier := StringValue t.apigwID, ResourceType := "APIGateway (v1)",
          Error := t.stage.err })
  | [], _, _ => rfl
  | t :: ts, h, hid => by
    obtain ⟨e, he⟩ := h t (List.mem_cons_self _ _)
    have ih := filterMap_reportOf_done ts (fun u hu => h u (List.mem_cons_of_mem _ hu))
      (fun u hu => hid u (List.mem_cons_of_mem _ hu))
    have hne := hid t (List.mem_cons_self _ _)
    cases hs : t.apigwID with
    | none => exact absurd hs hne
    | some s => simp [List.filterMap_cons, reportOf, he, hs, Stage.err, StringValue, ih]

/-- What `nukeAll` does on a batch within the ceiling whose pointers are all
non-nil, in terms of the final tasks `ts` (one per identifier, in batch order,
each holding the error its delete returned). -/
theorem nukeAll_run {σ : Type} (gw : ApiGateway σ) (sched : List Nat)
    (ids : List (Option String)) (w : World σ)
    (hlen : ids.length ≤ 100) (hid : ∀ id ∈ ids, id ≠ none) :
    ∃ (ts : List Task) (cs : List (Option String × Option AwsError)) (rs : List Entry)
      (w' : World σ),
      nukeAll gw sched ids w = (.returned (resultOf (ts.filterMap (fun t => t.stage.err))), w') ∧
      ts.map (fun t => t.apigwID) = ids ∧
      w'.deleteCalls = w.deleteCalls ++ cs ∧
      cs.Perm (ts.map (fun t => (t.apigwID, t.stage.err))) ∧
      w'.reports = w.reports ++ rs ∧
      rs.Perm (ts.map (fun t =>
        { Identifier := StringValue t.apigwID, ResourceType := "APIGateway (v1)",
          Error := t.stage.err })) ∧
      w'.events = w.events ++
        List.replicate (ts.filterMap (fun t => t.stage.err)).length (failureEvent gw) := by
  obtain ⟨w2, hw2, hd2, hr2, he2⟩ : ∃ w2 : World σ,
      w2 = { (if ids.length = 0 then { w with logs := w.logs ++ [.noGateways gw.Region] }
              else w) with
            logs := (if ids.length = 0 then { w with logs := w.logs ++ [.noGateways gw.Region] }
              else w).logs ++ [.deleting gw.Region] } ∧
      w2.deleteCalls = w.deleteCalls ∧ w2.reports = w.reports ∧ w2.events = w.events := by
    refine ⟨_, rfl, ?_, ?_, ?_⟩ <;> split <;> rfl
  have hc := fanOut_no_crash gw sched ids w2 hid
  have hdone := fanOut_done gw sched ids w2 hc
  have hids := fanOut_ids gw sched ids w2 hc
  have hinv := fanOut_inv gw sched ids w2 hc
  have hfin := allFinished_of_done _ hdone
  obtain ⟨cs, hcs, hcp⟩ := hinv.calls
  obtain ⟨rs, hrs, hrp⟩ := hinv.reps
  obtain ⟨acc', w3, h1, h2, h3, h4, h5, _, _⟩ :=
    collect_done gw (fanOut gw sched ids w2).tasks none (fanOut gw sched ids w2).world hdone
  have hne : ∀ t ∈ (fanOut gw sched ids w2).tasks, t.apigwID ≠ none := by
    intro t ht
    apply hid
    rw [← hids]
    exact List.mem_map.mpr ⟨t, ht, rfl⟩
  refine ⟨(fanOut gw sched ids w2).tasks, cs, rs, w3, ?_, hids, ?_, ?_, ?_, ?_, ?_⟩
  · have hres := ErrorOrNil_eq acc'
    rw [h2] at hres
    simp only [causes, List.nil_append] at hres
    unfold nukeAll
    simp only [← hw2, hc, hfin, if_neg (Nat.not_lt.mpr hlen), h1, Bool.false_eq_true, if_false,
      if_true]
    rw [← hres]
    cases MultiError.ErrorOrNil acc' <;> rfl
  · rw [h4, hcs, hd2]
  · rw [← filterMap_callOf_done _ hdone]; exact hcp
  · rw [h5, hrs, hr2]
  · rw [← filterMap_reportOf_done _ hdone hne]; exact hrp
  · rw [h3, hinv.events, he2]

/-- Whatever the batch, the schedule and the provider, `nukeAll` does not wait
forever: it returns, or the process exits in a panic first. -/
theorem nukeAll_never_blocks {σ : Type} (gw : ApiGateway σ) (sched : List Nat)
    (ids : List (Option String)) (w : World σ) :
    (nukeAll gw sched ids w).1 ≠ .blocked := by
  by_cases hlen : 100 < ids.length
  · simp [nukeAll, hlen]
  · obtain ⟨w2, hw2⟩ : ∃ w2 : World σ,
        w2 = { (if ids.length = 0 then { w with logs := w.logs ++ [.noGateways gw.Region] }
                else w) with
              logs := (if ids.length = 0 then { w with logs := w.logs ++ [.noGateways gw.Region] }
                else w).logs ++ [.deleting gw.Region] } := ⟨_, rfl⟩
    cases hfin : allFinished (fanOut gw sched ids w2).tasks with
    | false =>
      cases hc : (fanOut gw sched ids w2).crashed with
      | true =>
        unfold nukeAll
        simp only [← hw2, hc, hfin, if_neg hlen, Bool.false_eq_true, if_false, if_true]
        simp
      | false =>
        have := allFinished_of_done _ (fanOut_done gw sched ids w2 hc)
        rw [hfin] at this
        exact absurd this (by simp)
    | true =>
      have hall : ∀ t ∈ (fanOut gw sched ids w2).tasks, t.stage.finished = true := by
        unfold allFinished at hfin
        exact List.all_eq_true.mp hfin
      obtain ⟨b, hb⟩ : ∃ b : Option Nat,
          b = if (fanOut gw sched ids w2).crashed = true
            then some (exitBudget gw sched ids w2) else none := ⟨_, rfl⟩
      have hnb := collect_not_blocked gw (fanOut gw sched ids w2).tasks b
        (none, (fanOut gw sched ids w2).world) hall
      unfold nukeAll
      simp only [← hw2, hfin, if_neg hlen, if_true, ← hb]
      cases hcol : collect gw b (fanOut gw sched ids w2).tasks
          (none, (fanOut gw sched ids w2).world) with
      | mk c w3 =>
        rw [hcol] at hnb
        cases c with
        | returned v =>
          simp only []
          cases MultiError.ErrorOrNil v <;> simp
        | panicked => simp
        | blocked => exact absurd rfl hnb

/-! ## Batches of non-nil pointers -/

theorem resultOf_eq_none (l : List AwsError) : resultOf l = none ↔ l = [] := by
  unfold resultOf
  split <;> simp_all

theorem filterMap_snd_eq_nil {α β : Type} (l : List (α × Option β)) :
    l.filterMap Prod.snd = [] ↔ ∀ c ∈ l, c.2 = none := by
  induction l with
  | nil => simp
  | cons a l ih =>
    cases h : a.2 with
    | none => simp [List.filterMap_cons, h, ih]
    | some b => simp [List.filterMap_cons, h]

theorem length_filterMap_snd {α β : Type} (l : List (α × Option β)) :
    (l.filterMap Prod.snd).length = (l.filter (fun c => c.2.isSome)).length := by
  induction l with
  | nil => rfl
  | cons a l ih =>
    cases h : a.2 with
    | none => simp [List.filterMap_cons, List.filter_cons, h, ih]
    | some b => simp [List.filterMap_cons, List.filter_cons, h, ih]

/-- Batches of non-nil pointers within the ceiling: `nukeAll` returns, and it
returns nil exactly when every delete call it made returned nil. -/
theorem nonNil_returns_nil_iff {σ : Type} (gw : ApiGateway σ) (sched : List Nat)
    (ids : List (Option String)) (w : World σ)
    (hlen : ids.length ≤ 100) (hid : ∀ id ∈ ids, id ≠ none) :
    ∃ ret cs w', nukeAll gw sched ids w = (.returned ret, w') ∧
      w'.deleteCalls = w.deleteCalls ++ cs ∧
      (ret = none ↔ ∀ c ∈ cs, c.2 = none) := by
  obtain ⟨ts, cs, rs, w', hrun, _, hcalls, hcp, _, _, _⟩ := nukeAll_run gw sched ids w hlen hid
  refine ⟨_, cs, w', hrun, hcalls, ?_⟩
  have hfm : (ts.filterMap (fun t => t.stage.err)) =
      (ts.map (fun t => (t.apigwID, t.stage.err))).filterMap Prod.snd := by
    simp [List.filterMap_map, Function.comp_def]
  rw [resultOf_eq_none, hfm, filterMap_snd_eq_nil]
  constructor
  · intro h c hc
    exact h c (hcp.mem_iff.mp hc)
  · intro h c hc
    exact h c (hcp.mem_iff.mpr hc)

/-- Batches of non-nil pointers within the ceiling: the identifiers passed to
`DeleteRestApi` are the batch, each once. -/
theorem nonNil_deletes_each_once {σ : Type} (gw : ApiGateway σ) (sched : List Nat)
    (ids : List (Option String)) (w : World σ)
    (hlen : ids.length ≤ 100) (hid : ∀ id ∈ ids, id ≠ none) :
    ∃ ret cs w', nukeAll gw sched ids w = (.returned ret, w') ∧
      w'.deleteCalls = w.deleteCalls ++ cs ∧
      (cs.map Prod.fst).Perm ids ∧ cs.length = ids.length := by
  obtain ⟨ts, cs, rs, w', hrun, hids, hcalls, hcp, _, _, _⟩ := nukeAll_run gw sched ids w hlen hid
  have hp : (cs.map Prod.fst).Perm ids := by
    have := hcp.map Prod.fst
    simpa [List.map_map, Function.comp_def, hids] using this
  exact ⟨_, cs, w', hrun, hcalls, hp, by simpa using hp.length_eq⟩

/-- Batches of non-nil pointers within the ceiling: one report entry per
identifier, with that identifier, the resource type and the error its delete
returned. -/
theorem nonNil_reports_each {σ : Type} (gw : ApiGateway σ) (sched : List Nat)
    (ids : List (Option String)) (w : World σ)
    (hlen : ids.length ≤ 100) (hid : ∀ id ∈ ids, id ≠ none) :
    ∃ ret cs rs w', nukeAll gw sched ids w = (.returned ret, w') ∧
      w'.deleteCalls = w.deleteCalls ++ cs ∧
      w'.reports = w.reports ++ rs ∧
      rs.length = ids.length ∧
      (rs.map (fun e => some e.Identifier)).Perm ids ∧
      (∀ e ∈ rs, e.ResourceType = "APIGateway (v1)") ∧
      (rs.map (fun e => (some e.Identifier, e.Error))).Perm cs := by
  obtain ⟨ts, cs, rs, w', hrun, hids, hcalls, hcp, hreps, hrp, _⟩ :=
    nukeAll_run gw sched ids w hlen hid
  have hne : ∀ t ∈ ts, some (StringValue t.apigwID) = t.apigwID := by
    intro t ht
    have : t.apigwID ≠ none := hid _ (by rw [← hids]; exact List.mem_map.mpr ⟨t, ht, rfl⟩)
    cases h : t.apigwID with
    | none => exact absurd h this
    | some s => rfl
  have h1 : (rs.map (fun e => some e.Identifier)).Perm ids := by
    have := hrp.map (fun e => some e.Identifier)
    rw [List.map_map] at this
    refine this.trans ?_
    rw [← hids]
    exact List.Perm.of_eq (List.map_congr_left (fun t ht => hne t ht))
  have h2 : (rs.map (fun e => (some e.Identifier, e.Error))).Perm cs := by
    have := hrp.map (fun e => (some e.Identifier, e.Error))
    rw [List.map_map] at this
    refine this.trans (List.Perm.trans (List.Perm.of_eq ?_) hcp.symm)
    exact List.map_congr_left (fun t ht => by simp [hne t ht])
  refine ⟨_, cs, rs, w', hrun, hcalls, hreps, by simpa using h1.length_eq, h1, ?_, h2⟩
  intro e he
  obtain ⟨t, _, rfl⟩ := List.mem_map.mp (hrp.mem_iff.mp he)
  rfl

/-- Batches of non-nil pointers within the ceiling: the causes of the returned
error are the errors of the failed deletes, each once, and a batch with a
failed delete returns that combined error. -/
theorem nonNil_causes {σ : Type} (gw : ApiGateway σ) (sched : List Nat)
    (ids : List (Option String)) (w : World σ)
    (hlen : ids.length ≤ 100) (hid : ∀ id ∈ ids, id ≠ none) :
    ∃ ret cs w' causeList, nukeAll gw sched ids w = (.returned ret, w') ∧
      w'.deleteCalls = w.deleteCalls ++ cs ∧
      causeList.Perm (cs.filterMap Prod.snd) ∧
      causeList.length = (cs.filter (fun c => c.2.isSome)).length ∧
      ((∃ c ∈ cs, c.2 ≠ none) → ret = some (.stack (WithStackTrace ⟨causeList⟩))) := by
  obtain ⟨ts, cs, rs, w', hrun, _, hcalls, hcp, _, _, _⟩ := nukeAll_run gw sched ids w hlen hid
  have hfm : (ts.filterMap (fun t => t.stage.err)) =
      (ts.map (fun t => (t.apigwID, t.stage.err))).filterMap Prod.snd := by
    simp [List.filterMap_map, Function.comp_def]
  have hp : (ts.filterMap (fun t => t.stage.err)).Perm (cs.filterMap Prod.snd) := by
    rw [hfm]
    exact (hcp.filterMap Prod.snd).symm
  refine ⟨_, cs, w', _, hrun, hcalls, hp, ?_, ?_⟩
  · rw [hp.length_eq, length_filterMap_snd]
  · rintro ⟨c, hc, hne⟩
    have hnil : ts.filterMap (fun t => t.stage.err) ≠ [] := by
      intro h
      rw [hfm, filterMap_snd_eq_nil] at h
      exact hne (h c (hcp.mem_iff.mp hc))
    simp [resultOf, hnil]

/-- Batches of non-nil pointers within the ceiling: one telemetry failure event
per delete that returned an error, and nothing else is sent. -/
theorem nonNil_telemetry {σ : Type} (gw : ApiGateway σ) (sched : List Nat)
    (ids : List (Option String)) (w : World σ)
    (hlen : ids.length ≤ 100) (hid : ∀ id ∈ ids, id ≠ none) :
    ∃ ret cs w', nukeAll gw sched ids w = (.returned ret, w') ∧
      w'.deleteCalls = w.deleteCalls ++ cs ∧
      w'.events = w.events ++
        List.replicate (cs.filter (fun c => c.2.isSome)).length
          { EventName := "Error Nuking API Gateway", region := gw.Region } := by
  obtain ⟨ts, cs, rs, w', hrun, _, hcalls, hcp, _, _, hev⟩ := nukeAll_run gw sched ids w hlen hid
  have hfm : (ts.filterMap (fun t => t.stage.err)) =
      (ts.map (fun t => (t.apigwID, t.stage.err))).filterMap Prod.snd := by
    simp [List.filterMap_map, Function.comp_def]
  refine ⟨_, cs, w', hrun, hcalls, ?_⟩
  rw [hev, hfm, (hcp.filterMap Prod.snd).symm.length_eq, length_filterMap_snd]
  rfl

/-! ## Batches of identifiers -/

/-- Claim C1. For every batch of at most 100 identifiers, every provider (so
every assignment of delete outcomes) and every schedule, `nukeAll` returns, and
what it returns is nil exactly when every `DeleteRestApi` call it made for the
batch returned a nil error. -/
theorem nukeAll_returns_nil_iff {σ : Type} (gw : ApiGateway σ) (sched : List Nat)
    (ids : List String) (w : World σ) (hlen : ids.length ≤ 100) :
    ∃ ret cs w', nukeAll gw sched (ids.map some) w = (.returned ret, w') ∧
      w'.deleteCalls = w.deleteCalls ++ cs ∧
      (ret = none ↔ ∀ c ∈ cs, c.2 = none) :=
  nonNil_returns_nil_iff gw sched (ids.map some) w (by simpa using hlen) (by simp)

theorem nukeAll_returns_nil_iff_witness :
    ["X", "Y", "Z"].length ≤ 100 ∧
      ∃ ret cs w',
        nukeAll zFailsGateway [2, 0, 2, 1] (["X", "Y", "Z"].map some) emptyWorld =
          (.returned ret, w') ∧
        w'.deleteCalls = emptyWorld.deleteCalls ++ cs ∧
        (ret = none ↔ ∀ c ∈ cs, c.2 = none) :=
  ⟨by decide,
    nukeAll_returns_nil_iff zFailsGateway [2, 0, 2, 1] ["X", "Y", "Z"] emptyWorld (by decide)⟩

/-- Claim C3. For every batch of at most 100 identifiers (100 included), every
provider and every schedule, `nukeAll` returns and the identifiers it passed to
`DeleteRestApi` are those of the batch, each as many times as it is in the
batch: no call is repeated and none is left out, whatever the deletes
returned. -/
theorem nukeAll_deletes_each_once {σ : Type} (gw : ApiGateway σ) (sched : List Nat)
    (ids : List String) (w : World σ) (hlen : ids.length ≤ 100) :
    ∃ ret cs w', nukeAll gw sched (ids.map some) w = (.returned ret, w') ∧
      w'.deleteCalls = w.deleteCalls ++ cs ∧
      (cs.map Prod.fst).Perm (ids.map some) ∧ cs.length = ids.length := by
  obtain ⟨ret, cs, w', h1, h2, h3, h4⟩ :=
    nonNil_deletes_each_once gw sched (ids.map some) w (by simpa using hlen)
      (by simp)
  exact ⟨ret, cs, w', h1, h2, h3, by simpa using h4⟩

theorem nukeAll_deletes_each_once_witness :
    (List.replicate 100 "a").length ≤ 100 ∧
      ∃ ret cs w',
        nukeAll zFailsGateway [2, 0, 2, 1] ((List.replicate 100 "a").map some) emptyWorld =
          (.returned ret, w') ∧
        w'.deleteCalls = emptyWorld.deleteCalls ++ cs ∧
        (cs.map Prod.fst).Perm ((List.replicate 100 "a").map some) ∧
        cs.length = (List.replicate 100 "a").length :=
  ⟨by simp,
    nukeAll_deletes_each_once zFailsGateway [2, 0, 2, 1] (List.replicate 100 "a") emptyWorld
      (by simp)⟩

/-- Claim C4. For every batch of `n ≤ 100` identifiers, every provider and every
schedule, `nukeAll` returns and has recorded exactly `n` report entries: their
identifiers are those of the batch, each has the resource type
`APIGateway (v1)`, and paired with their errors they are exactly the delete calls
made with the errors these returned, nil or not. -/
theorem nukeAll_reports_each {σ : Type} (gw : ApiGateway σ) (sched : List Nat)
    (ids : List String) (w : World σ) (hlen : ids.length ≤ 100) :
    ∃ ret cs rs w', nukeAll gw sched (ids.map some) w = (.returned ret, w') ∧
      w'.deleteCalls = w.deleteCalls ++ cs ∧
      w'.reports = w.reports ++ rs ∧
      rs.length = ids.length ∧
      (rs.map (fun e => e.Identifier)).Perm ids ∧
      (∀ e ∈ rs, e.ResourceType = "APIGateway (v1)") ∧
      (rs.map (fun e => (some e.Identifier, e.Error))).Perm cs := by
  obtain ⟨ret, cs, rs, w', h1, h2, h3, h4, h5, h6, h7⟩ :=
    nonNil_reports_each gw sched (ids.map some) w (by simpa using hlen)
      (by simp)
  refine ⟨ret, cs, rs, w', h1, h2, h3, by simpa using h4, ?_, h6, h7⟩
  have h8 := h5.filterMap id
  simp only [List.filterMap_map, Function.comp_def, id] at h8
  have h9 : rs.filterMap (fun x => some x.Identifier) = rs.map (fun e => e.Identifier) :=
    congrFun (List.filterMap_eq_map (fun e : Entry => e.Identifier)) rs
  rw [h9, List.filterMap_some] at h8
  exact h8

theorem nukeAll_reports_each_witness :
    ["X", "Y", "Z"].length ≤ 100 ∧
      ∃ ret cs rs w',
        nukeAll zFailsGateway [2, 0, 2, 1] (["X", "Y", "Z"].map some) emptyWorld =
          (.returned ret, w') ∧
        w'.deleteCalls = emptyWorld.deleteCalls ++ cs ∧
        w'.reports = emptyWorld.reports ++ rs ∧
        rs.length = ["X", "Y", "Z"].length ∧
        (rs.map (fun e => e.Identifier)).Perm ["X", "Y", "Z"] ∧
        (∀ e ∈ rs, e.ResourceType = "APIGateway (v1)") ∧
        (rs.map (fun e => (some e.Identifier, e.Error))).Perm cs :=
  ⟨by decide,
    nukeAll_reports_each zFailsGateway [2, 0, 2, 1] ["X", "Y", "Z"] emptyWorld (by decide)⟩

/-- Claim C6. For every batch of at most 100 identifiers, every provider and
every schedule, `nukeAll` returns, and there is a list of causes, made of the
errors of the failed deletes, each once, and of nothing else (so as many causes
as failed deletes), such that a batch with a failed delete returns the combined
error holding exactly these causes. -/
theorem nukeAll_causes {σ : Type} (gw : ApiGateway σ) (sched : List Nat)
    (ids : List String) (w : World σ) (hlen : ids.length ≤ 100) :
    ∃ ret cs w' causeList, nukeAll gw sched (ids.map some) w = (.returned ret, w') ∧
      w'.deleteCalls = w.deleteCalls ++ cs ∧
      causeList.Perm (cs.filterMap Prod.snd) ∧
      causeList.length = (cs.filter (fun c => c.2.isSome)).length ∧
      ((∃ c ∈ cs, c.2 ≠ none) → ret = some (.stack (WithStackTrace ⟨causeList⟩))) :=
  nonNil_causes gw sched (ids.map some) w (by simpa using hlen) (by simp)

theorem nukeAll_causes_witness :
    ["X", "Y", "Z"].length ≤ 100 ∧
      ∃ ret cs w' causeList,
        nukeAll zFailsGateway [2, 0, 2, 1] (["X", "Y", "Z"].map some) emptyWorld =
          (.returned ret, w') ∧
        w'.deleteCalls = emptyWorld.deleteCalls ++ cs ∧
        causeList.Perm (cs.filterMap Prod.snd) ∧
        causeList.length = (cs.filter (fun c => c.2.isSome)).length ∧
        ((∃ c ∈ cs, c.2 ≠ none) → ret = some (.stack (WithStackTrace ⟨causeList⟩))) :=
  ⟨by decide,
    nukeAll_causes zFailsGateway [2, 0, 2, 1] ["X", "Y", "Z"] emptyWorld (by decide)⟩

/-- Claim C7. For every batch of at most 100 identifiers, every provider and
every schedule, `nukeAll` returns and the telemetry events it has sent are one
`Error Nuking API Gateway` event per delete call that returned a non-nil error,
and nothing else; none when all deletes succeeded. -/
theorem nukeAll_telemetry {σ : Type} (gw : ApiGateway σ) (sched : List Nat)
    (ids : List String) (w : World σ) (hlen : ids.length ≤ 100) :
    ∃ ret cs w', nukeAll gw sched (ids.map some) w = (.returned ret, w') ∧
      w'.deleteCalls = w.deleteCalls ++ cs ∧
      w'.events = w.events ++
        List.replicate (cs.filter (fun c => c.2.isSome)).length
          { EventName := "Error Nuking API Gateway", region := gw.Region } :=
  nonNil_telemetry gw sched (ids.map some) w (by simpa using hlen) (by simp)

theorem nukeAll_telemetry_witness :
    ["X", "Y", "Z"].length ≤ 100 ∧
      ∃ ret cs w',
        nukeAll zFailsGateway [2, 0, 2, 1] (["X", "Y", "Z"].map some) emptyWorld =
          (.returned ret, w') ∧
        w'.deleteCalls = emptyWorld.deleteCalls ++ cs ∧
        w'.events = emptyWorld.events ++
          List.replicate (cs.filter (fun c => c.2.isSome)).length
            { EventName := "Error Nuking API Gateway", region := zFailsGateway.Region } :=
  ⟨by decide,
    nukeAll_telemetry zFailsGateway [2, 0, 2, 1] ["X", "Y", "Z"] emptyWorld (by decide)⟩

/-- Scenario 2 of the specification: batch `[X, Y, Z]` where only the delete of
`Z` fails, under an interleaved schedule. One cause, three report entries, one
telemetry event. -/
theorem scenario_two :
    (nukeAll zFailsGateway [2, 0, 2, 1] [some "X", some "Y", some "Z"] emptyWorld).1 =
        .returned (some (.stack (WithStackTrace ⟨[⟨"delete Z failed"⟩]⟩))) ∧
      (nukeAll zFailsGateway [2, 0, 2, 1] [some "X", some "Y", some "Z"] emptyWorld).2.reports =
        [{ Identifier := "Z", ResourceType := "APIGateway (v1)",
           Error := some ⟨"delete Z failed"⟩ },
         { Identifier := "X", ResourceType := "APIGateway (v1)", Error := none },
         { Identifier := "Y", ResourceType := "APIGateway (v1)", Error := none }] ∧
      (nukeAll zFailsGateway [2, 0, 2, 1] [some "X", some "Y", some "Z"] emptyWorld).2.events =
        [{ EventName := "Error Nuking API Gateway", region := "us-east-1" }] := by
  decide

/-! ## Selection, ceiling and empty batch -/

theorem runUntilJoin_of_finished {σ : Type} (gw : ApiGateway σ) (s : List Nat)
    (st : RunState σ) (h : allFinished st.tasks = true) : (runUntilJoin gw s st).1 = st := by
  cases s with
  | nil => rfl
  | cons i s => simp [runUntilJoin, h]

theorem fanOut_empty {σ : Type} (gw : ApiGateway σ) (sched : List Nat) (w : World σ) :
    fanOut gw sched [] w = { tasks := [], world := w, crashed := false } := by
  have h : (runUntilJoin gw sched (startState [] w)).1 = startState [] w :=
    runUntilJoin_of_finished gw sched _ rfl
  unfold fanOut
  simp only [h]
  rfl

theorem foldl_getAllStep {σ : Type} (cfg : Config) :
    ∀ (items : List RestApi) (acc : List (Option String)) (w : World σ),
      items.foldl (getAllStep cfg) (acc, w) =
        (acc ++ (items.filter (fun api =>
            cfg.APIGateway.ShouldInclude { Name := api.Name, Time := api.CreatedDate })).map
              (fun api => api.Id),
         { w with filterEvals := w.filterEvals ++
             items.map (fun api => { Name := api.Name, Time := api.CreatedDate }) })
  | [], acc, w => by simp
  | api :: items, acc, w => by
    rw [List.foldl_cons]
    by_cases h : cfg.APIGateway.ShouldInclude { Name := api.Name, Time := api.CreatedDate } = true
    · simp [getAllStep, h, foldl_getAllStep cfg items, List.filter_cons]
    · simp [getAllStep, h, foldl_getAllStep cfg items, List.filter_cons]

/-- Claim C2. A batch of more than 100 identifiers: `nukeAll` returns
`TooManyApiGatewayErr` and leaves the world as it was except for one error log
line, so no delete call was made, no report entry recorded and no telemetry
event sent. -/
theorem nukeAll_too_many {σ : Type} (gw : ApiGateway σ) (sched : List Nat)
    (ids : List (Option String)) (w : World σ) (h : 100 < ids.length) :
    nukeAll gw sched ids w =
        (.returned (some .TooManyApiGatewayErr), { w with logs := w.logs ++ [.tooMany] }) ∧
      (nukeAll gw sched ids w).2.deleteCalls = w.deleteCalls ∧
      (nukeAll gw sched ids w).2.reports = w.reports ∧
      (nukeAll gw sched ids w).2.events = w.events ∧
      (nukeAll gw sched ids w).2.provider = w.provider := by
  have h0 : ¬ ids.length = 0 := by omega
  have heq : nukeAll gw sched ids w =
      (.returned (some .TooManyApiGatewayErr), { w with logs := w.logs ++ [.tooMany] }) := by
    simp only [nukeAll, if_pos h, if_neg h0]
  rw [heq]
  exact ⟨rfl, rfl, rfl, rfl, rfl⟩

theorem nukeAll_too_many_witness :
    100 < (List.replicate 101 (some "a")).length ∧
      (nukeAll zFailsGateway [] (List.replicate 101 (some "a")) emptyWorld).1 =
        .returned (some .TooManyApiGatewayErr) ∧
      (nukeAll zFailsGateway [] (List.replicate 101 (some "a")) emptyWorld).2.deleteCalls = [] ∧
      (nukeAll zFailsGateway [] (List.replicate 101 (some "a")) emptyWorld).2.reports = [] ∧
      (nukeAll zFailsGateway [] (List.replicate 101 (some "a")) emptyWorld).2.events = [] :=
  have h := nukeAll_too_many zFailsGateway [] (List.replicate 101 (some "a")) emptyWorld
    (by simp)
  ⟨by simp, by rw [h.1], h.2.1, h.2.2.1, h.2.2.2.1⟩

/-- Claim C9. The empty batch: `nukeAll` returns nil; the only trace it leaves is two
log lines, the second being the one written when the fan-out code is entered,
so the call did fall through; the fan-out runs no task, whatever the schedule,
and no delete call, report entry or telemetry event is made. -/
theorem nukeAll_empty {σ : Type} (gw : ApiGateway σ) (sched : List Nat) (w : World σ) :
    nukeAll gw sched [] w =
        (.returned none,
         { w with logs := w.logs ++ [.noGateways gw.Region, .deleting gw.Region] }) ∧
      (fanOut gw sched [] w).tasks = [] ∧
      (nukeAll gw sched [] w).2.deleteCalls = w.deleteCalls ∧
      (nukeAll gw sched [] w).2.reports = w.reports ∧
      (nukeAll gw sched [] w).2.events = w.events := by
  have heq : nukeAll gw sched [] w =
      (.returned none,
       { w with logs := w.logs ++ [.noGateways gw.Region, .deleting gw.Region] }) := by
    simp [nukeAll, fanOut_empty, allFinished, collect, MultiError.ErrorOrNil]
  rw [heq, fanOut_empty]
  exact ⟨rfl, rfl, rfl, rfl, rfl⟩

/-- Result of `getAll` after a listing call that succeeded. -/
theorem getAll_of_listing_ok {σ : Type} (gw : ApiGateway σ) (cfg : Config) (w : World σ)
    (h : (gw.Client.GetRestApis w.provider).1.2 = none) :
    getAll gw cfg w =
      ((((gw.Client.GetRestApis w.provider).1.1.Items.filter (fun api =>
            cfg.APIGateway.ShouldInclude { Name := api.Name, Time := api.CreatedDate })).map
              (fun api => api.Id), none),
       { w with
         provider := (gw.Client.GetRestApis w.provider).2,
         filterEvals := w.filterEvals ++
           (gw.Client.GetRestApis w.provider).1.1.Items.map
             (fun api => { Name := api.Name, Time := api.CreatedDate }) }) := by
  simp [getAll, h, foldl_getAllStep]

/-- Claim C5. When the listing call succeeds, `getAll` returns the `Id` of
exactly the listed items whose `{Name, CreatedDate}` view passes `ShouldInclude`,
in listing order, with a nil error; the filter is evaluated once per listed
item. -/
theorem getAll_filters_in_order {σ : Type} (gw : ApiGateway σ) (cfg : Config) (w : World σ)
    (h : (gw.Client.GetRestApis w.provider).1.2 = none) :
    (getAll gw cfg w).1 =
        (((gw.Client.GetRestApis w.provider).1.1.Items.filter (fun api =>
            cfg.APIGateway.ShouldInclude { Name := api.Name, Time := api.CreatedDate })).map
              (fun api => api.Id), none) ∧
      (getAll gw cfg w).2.filterEvals = w.filterEvals ++
        (gw.Client.GetRestApis w.provider).1.1.Items.map
          (fun api => { Name := api.Name, Time := api.CreatedDate }) := by
  rw [getAll_of_listing_ok gw cfg w h]
  exact ⟨rfl, rfl⟩

theorem getAll_filters_in_order_witness :
    (keepDropGateway.Client.GetRestApis emptyWorld.provider).1.2 = none ∧
      (keepDropGateway.Client.GetRestApis emptyWorld.provider).1.1.Items =
        [{ Id := some "A", Name := some "keep", CreatedDate := some 0 },
         { Id := some "B", Name := some "drop", CreatedDate := some 0 }] ∧
      (getAll keepDropGateway dropConfig emptyWorld).1 = ([some "B"], none) :=
  ⟨rfl, rfl, (getAll_filters_in_order keepDropGateway dropConfig emptyWorld rfl).1.trans
    (by decide)⟩

/-- Claim C8. The error `getAll` returns is the listing error wrapped by
`WithStackTrace`, hence nil when the listing call succeeds; and when the listing
call fails, `getAll` returns the empty identifier list whatever items came with
the error, and the filter is not evaluated. -/
theorem getAll_listing_error {σ : Type} (gw : ApiGateway σ) (cfg : Config) (w : World σ) :
    (getAll gw cfg w).1.2 = ((gw.Client.GetRestApis w.provider).1.2).map WithStackTrace ∧
      (∀ err, (gw.Client.GetRestApis w.provider).1.2 = some err →
        getAll gw cfg w =
          (([], some (WithStackTrace err)),
           { w with provider := (gw.Client.GetRestApis w.provider).2 }) ∧
        (getAll gw cfg w).2.filterEvals = w.filterEvals) := by
  constructor
  · cases h : (gw.Client.GetRestApis w.provider).1.2 <;> simp [getAll, h]
  · intro err h
    have heq : getAll gw cfg w = (([], some (WithStackTrace err)),
        { w with provider := (gw.Client.GetRestApis w.provider).2 }) := by
      simp [getAll, h]
    rw [heq]
    exact ⟨rfl, rfl⟩

theorem getAll_listing_error_witness :
    (brokenListingGateway.Client.GetRestApis emptyWorld.provider).1.2 = some ⟨"listing failed"⟩ ∧
      (brokenListingGateway.Client.GetRestApis emptyWorld.provider).1.1.Items ≠ [] ∧
      getAll brokenListingGateway allConfig emptyWorld =
        (([], some (WithStackTrace ⟨"listing failed"⟩)), emptyWorld) :=
  ⟨rfl, by decide,
    ((getAll_listing_error brokenListingGateway allConfig emptyWorld).2 ⟨"listing failed"⟩ rfl).1⟩

/-! ## The delete task on its own -/

/-- Claim C10. A delete task can fail at one place only, the dereference of a nil
identifier after the send. Run on its own, `nukeAsync` on a non-nil identifier
ends without panic and has recorded the report entry; on a nil identifier it
has issued the delete request and put the outcome in the channel when it
panics (the stage `panicked` keeps that outcome), and the report sink is
untouched. `getAll` hands on the `Id` of every
included item as it is, nil or not. -/
theorem nukeAsync_partial_at_deref {σ : Type} (gw : ApiGateway σ) (cfg : Config)
    (w : World σ) (t : Task) (s : String) (api : RestApi) :
    (nukeAsyncStep gw t w = .crash ↔ (∃ e, t.stage = .sent e) ∧ t.apigwID = none) ∧
    nukeAsync gw (some s) w =
      { tasks := [{ apigwID := some s,
                    stage := .done (gw.Client.DeleteRestApi ⟨some s⟩ w.provider).1 }],
        world :=
          { w with
            provider := (gw.Client.DeleteRestApi ⟨some s⟩ w.provider).2,
            deleteCalls := w.deleteCalls ++
              [(some s, (gw.Client.DeleteRestApi ⟨some s⟩ w.provider).1)],
            reports := w.reports ++
              [{ Identifier := s, ResourceType := "APIGateway (v1)",
                 Error := (gw.Client.DeleteRestApi ⟨some s⟩ w.provider).1 }],
            logs := w.logs ++
              [if (gw.Client.DeleteRestApi ⟨some s⟩ w.provider).1 = none
               then .okDeleted s gw.Region else .failedDeleting s gw.Region] },
        crashed := false } ∧
    nukeAsync gw none w =
      { tasks := [{ apigwID := none,
                    stage := .panicked (gw.Client.DeleteRestApi ⟨none⟩ w.provider).1 }],
        world :=
          { w with
            provider := (gw.Client.DeleteRestApi ⟨none⟩ w.provider).2,
            deleteCalls := w.deleteCalls ++
              [(none, (gw.Client.DeleteRestApi ⟨none⟩ w.provider).1)] },
        crashed := true } ∧
    ((gw.Client.GetRestApis w.provider).1.2 = none →
      api ∈ (gw.Client.GetRestApis w.provider).1.1.Items →
      cfg.APIGateway.ShouldInclude { Name := api.Name, Time := api.CreatedDate } = true →
      api.Id ∈ (getAll gw cfg w).1.1) := by
  refine ⟨?_, ?_, ?_, ?_⟩
  · rcases nukeAsyncStep_cases gw t w with ⟨hst, heq⟩ | ⟨e, hst, hnil, heq⟩ |
      ⟨e, s', hst, hsome, heq⟩ | ⟨e, l, hst, heq⟩ | ⟨e, hst, heq⟩
    · simp [heq, hst]
    · simp [heq, hst, hnil]
    · simp [heq, hst, hsome]
    · simp [heq, hst]
    · rcases hst with hst | hst <;> simp [heq, hst]
  · simp [nukeAsync, runSched, stepAt, nukeAsyncStep, StringValue]
  · simp [nukeAsync, runSched, stepAt, nukeAsyncStep, Stage.afterPanic]
  · intro h hmem hinc
    rw [getAll_of_listing_ok gw cfg w h]
    exact List.mem_map.mpr ⟨api, List.mem_filter.mpr ⟨hmem, by simpa using hinc⟩, rfl⟩

theorem nukeAsync_partial_at_deref_witness :
    (nilIdGateway.Client.GetRestApis emptyWorld.provider).1.2 = none ∧
      ({ Id := none, Name := some "drop-me", CreatedDate := some 0 } : RestApi) ∈
        (nilIdGateway.Client.GetRestApis emptyWorld.provider).1.1.Items ∧
      dropConfig.APIGateway.ShouldInclude { Name := some "drop-me", Time := some 0 } = true ∧
      none ∈ (getAll nilIdGateway dropConfig emptyWorld).1.1 ∧
      (nukeAsync nilIdGateway none emptyWorld).crashed = true ∧
      (nukeAsync nilIdGateway none emptyWorld).world.reports = [] ∧
      (nukeAsync nilIdGateway none emptyWorld).world.deleteCalls = [(none, none)] :=
  have h := nukeAsync_partial_at_deref nilIdGateway dropConfig emptyWorld
    { apigwID := none, stage := .pending } "a"
    { Id := none, Name := some "drop-me", CreatedDate := some 0 }
  ⟨rfl, by decide, by decide, h.2.2.2 rfl (by decide) (by decide),
    by rw [h.2.2.1], by rw [h.2.2.1]; rfl, by rw [h.2.2.1]; rfl⟩

/-! ## What a nil pointer in the batch does

A nil pointer is not an identifier; these runs show the race it opens between
the goroutines and the exit of the process. -/

/-- Batch `[nil, b]`, the process exiting right after the panic: the delete of
`b` is not issued and the call does not return. -/
theorem nil_pointer_exit_before_join :
    nukeAll okGateway [0, 0] [none, some "b"] emptyWorld =
      (.panicked,
       { emptyWorld with
         deleteCalls := [(none, none)], logs := [.deleting "us-east-1"] }) := by
  decide

/-- Batch `[nil, b]`, the process exiting late: the other goroutine finishes,
the deferred `wg.Done()` of the panicking one lets `wg.Wait()` return, and the
call returns nil. -/
theorem nil_pointer_call_returns :
    nukeAll okGateway [0, 0, 1, 1, 1, 2] [none, some "b"] emptyWorld =
      (.returned none,
       { emptyWorld with
         deleteCalls := [(none, none), (some "b", none)],
         reports := [{ Identifier := "b", ResourceType := "APIGateway (v1)", Error := none }],
         logs := [.deleting "us-east-1", .okDeleted "b" "us-east-1"] }) := by
  decide

/-- Batch `[nil]` with a failing delete, the process exiting after the loop of
lines 60-71 and before the return: the telemetry event has been sent. -/
theorem nil_pointer_telemetry_sent :
    (nukeAll zFailsGateway [0, 0, 1, 1] [none] emptyWorld).1 = .panicked ∧
      (nukeAll zFailsGateway [0, 0, 1, 1] [none] emptyWorld).2.events =
        [{ EventName := "Error Nuking API Gateway", region := "us-east-1" }] ∧
      (nukeAll zFailsGateway [0, 0, 1, 1] [none] emptyWorld).2.reports = [] := by
  decide

end CloudNuke
